import Mathlib

/-!
Verification of the ISRC validation program (isrc.py).

The program validates International Standard Recording Codes: a validator
checks a single 12-character code against the regular expression
`[a-zA-Z]{2}[a-zA-Z0-9]{3}[0-9]{7}`, and a scanner reads a line-oriented
input source, partitions lines into valid and invalid accumulators, and
writes the two accumulators to output files.  A reporting helper buckets
valid codes by their two year digits.

Strings are modelled by Lean strings (both Python and Lean strings are
sequences of unicode code points, and `len` / slicing in Python agree with
`String.length` / `String.take` / `String.drop` here).  File-system state
and the side effects of the scanner are modelled explicitly: the file
system is a record of predicates and contents, and one run of the scanner
produces the list of observable events (messages, file writes, removals,
and the fatal error exit) in program order.
-/

namespace ISRC

/-! ## Definitions

### The validator: `validate_isrc` (isrc.py lines 218-230) -/

/-- Character class `[a-zA-Z]` of the validator regex. -/
def isAsciiLetter (c : Char) : Bool :=
  ('a' ≤ c && c ≤ 'z') || ('A' ≤ c && c ≤ 'Z')

/-- Character class `[0-9]` of the validator regex. -/
def isAsciiDigit (c : Char) : Bool :=
  '0' ≤ c && c ≤ '9'

/-- Character class `[a-zA-Z0-9]` of the validator regex. -/
def isAsciiAlnum (c : Char) : Bool :=
  isAsciiLetter c || isAsciiDigit c

/-- Matching a bounded repetition `cls{n}` at the head of a character list:
returns the remaining characters on success, `none` on failure. -/
def matchRun (p : Char → Bool) : Nat → List Char → Option (List Char)
  | 0, cs => some cs
  | _ + 1, [] => none
  | n + 1, c :: cs => if p c then matchRun p n cs else none

/-- Python's `re.compile("[a-zA-Z]{2}[a-zA-Z0-9]{3}[0-9]{7}").match(s)`:
the pattern is matched at the start of the string only (no end anchor),
exactly as `re.match` does.  Truthiness of the returned match object. -/
def re_match_isrc (cs : List Char) : Bool :=
  match matchRun isAsciiLetter 2 cs with
  | none => false
  | some cs1 =>
    match matchRun isAsciiAlnum 3 cs1 with
    | none => false
    | some cs2 => (matchRun isAsciiDigit 7 cs2).isSome

/-- Model of `validate_isrc` (isrc.py lines 218-230): length check, then the
regex match; `False` for any other length.  The boolean is the truthiness of
the Python return value (a match object or `False`). -/
def validate_isrc (isrc : String) : Bool :=
  if isrc.length = 12 then re_match_isrc isrc.data else false

/-- Modelled from the spec's words: a full, both-ends-anchored match of the
pattern `^[A-Za-z]{2}[A-Za-z0-9]{3}[0-9]{7}$` (the match must consume the
whole character list, leaving nothing). -/
def spec_full_match (cs : List Char) : Bool :=
  match matchRun isAsciiLetter 2 cs with
  | none => false
  | some cs1 =>
    match matchRun isAsciiAlnum 3 cs1 with
    | none => false
    | some cs2 =>
      match matchRun isAsciiDigit 7 cs2 with
      | none => false
      | some rest => rest.isEmpty

/-- Modelled from the spec's words: `isValid(s)` holds iff `s` has length
exactly 12 and matches the anchored pattern. -/
def spec_isValid (s : String) : Bool :=
  decide (s.length = 12) && spec_full_match s.data

/-! ### The scan loop of `validate_isrcs` (isrc.py lines 257-267)

The loop body is
`if len(line) == 13 and validate_isrc(line[0:12]): valid_isrcs += line
 else: invalid_isrcs += line; cpt_invalid += 1`
iterated over the lines of the input file in order. -/

/-- Classification applied to one raw input line: total length exactly 13 and
the first 12 characters pass the validator (short-circuit `and`, as in the
source's `len(line) == 13 and validate_isrc(line[0:12])`). -/
def classify_line (line : String) : Bool :=
  decide (line.length = 13) && validate_isrc (line.take 12)

/-- One iteration of the scan loop: state is
(valid_isrcs, invalid_isrcs, cpt_invalid). -/
def scan_step (acc : String × String × Nat) (line : String) : String × String × Nat :=
  if classify_line line then (acc.1 ++ line, acc.2.1, acc.2.2)
  else (acc.1, acc.2.1 ++ line, acc.2.2 + 1)

/-- The whole scan loop, started from the source's initial state
`valid_isrcs = ""`, `invalid_isrcs = ""`, `cpt_invalid = 0`. -/
def scan_lines (lines : List String) : String × String × Nat :=
  lines.foldl scan_step ("", "", 0)

/-- Routing view of the same loop: the sequence of raw lines appended to the
valid accumulator and the sequence appended to the invalid accumulator, each
in input order. -/
def scan_route : List String → List String × List String
  | [] => ([], [])
  | line :: rest =>
    if classify_line line then
      (line :: (scan_route rest).1, (scan_route rest).2)
    else
      ((scan_route rest).1, line :: (scan_route rest).2)

/-- Concatenation of a list of strings (the accumulators grow by string
concatenation in the source). -/
def concat_all : List String → String
  | [] => ""
  | s :: rest => s ++ concat_all rest

/-! ### File-system model and the effects of `validate_isrcs`
(isrc.py lines 232-285) -/

/-- Abstract file-system state seen by one run: which paths are regular
files, which paths exist at all, environment-dependent absolute-path
resolution, the lines obtained by iterating over a file, and the entry
names a directory listing produces. -/
structure FS where
  isFile : String → Bool
  pathExists : String → Bool
  abspath : String → String
  fileLines : String → List String
  dirListing : String → List String

/-- Observable events of one run, in program order. -/
inductive Event where
  | info (msg : String)
  | warning (msg : String)
  | success (msg : String)
  | write (path : String) (content : String)
  | remove (path : String)
  | errorExit (msg : String) (code : Nat)
  deriving DecidableEq

/-- Model of `print_error` (isrc.py lines 59-67): prints the message and
calls `sys.exit()` with no argument, which terminates the process with exit
status 0 (Python's `sys.exit` treats a missing argument as `None`, i.e.
success). -/
def print_error (msg : String) : Event :=
  Event.errorExit msg 0

/-- Model of `abs_path_dir` (isrc.py lines 207-216): accept the path when it
exists and is not a regular file, returning its absolute form; otherwise
stop fatally through `print_error`. -/
def abs_path_dir (fs : FS) (dir_name : String) : Except Event String :=
  if !fs.isFile dir_name && fs.pathExists dir_name then
    Except.ok (fs.abspath dir_name)
  else
    Except.error (print_error ("Invalid directory name: " ++ dir_name))

/-- Output-path warning of `validate_isrcs` (isrc.py lines 252-255): a
warning is printed exactly when the output path already names a file. -/
def out_warn_events (fs : FS) (output_file : String) : List Event :=
  if !fs.isFile output_file then []
  else [Event.warning "Already existing output file will be overwritten"]

/-- Output path actually used (isrc.py lines 252-255): made absolute when it
does not already name a file, kept as given otherwise. -/
def out_path (fs : FS) (output_file : String) : String :=
  if !fs.isFile output_file then fs.abspath output_file else output_file

/-- Second half of `validate_isrcs` (isrc.py lines 252-285): output-path
warning, scan of the input lines, removal of the temporary listing file in
directory mode, unconditional write of `ISRC_valid.txt`, and either the
invalid-output write (with its two messages) or the all-valid success
message.  `pre` carries the events of the input-resolution phase. -/
def scan_and_write (pre : List Event) (fs : FS) (inputLines : List String)
    (output_file : String) (rm_input_file : Bool) : List Event :=
  pre ++ out_warn_events fs output_file
    ++ (if rm_input_file then [Event.remove "tmpISRCs.txt"] else [])
    ++ [Event.write "ISRC_valid.txt" (scan_lines inputLines).1]
    ++ (if (scan_lines inputLines).2.1.length ≠ 0 then
          [Event.warning (toString (scan_lines inputLines).2.2 ++ " invalid ISRCs"),
           Event.write (out_path fs output_file) (scan_lines inputLines).2.1,
           Event.info ("Invalid ISRCs can be seen in: " ++ out_path fs output_file)]
        else [Event.success "All ISRCs are valid"])

/-- Model of `validate_isrcs` (isrc.py lines 232-285).  In directory mode
the directory is checked by `abs_path_dir`, its listing is piped into the
temporary file `tmpISRCs.txt` (one entry name per line, as `ls` prints), and
that file becomes the input; in file mode the input path must name a file,
else the run stops fatally.  The result is the event trace of the run. -/
def validate_isrcs (fs : FS) (input_file output_file : String)
    (dir_input : Option String) : List Event :=
  match dir_input with
  | some d =>
    match abs_path_dir fs d with
    | Except.error e => [e]
    | Except.ok dabs =>
      scan_and_write
        [Event.info ("Directory to analyse: " ++ dabs),
         Event.write "tmpISRCs.txt"
           (concat_all ((fs.dirListing dabs).map (fun name => name ++ "\n")))]
        fs ((fs.dirListing dabs).map (fun name => name ++ "\n")) output_file true
  | none =>
    if fs.isFile input_file then
      scan_and_write [Event.info ("Input File: " ++ fs.abspath input_file)]
        fs (fs.fileLines (fs.abspath input_file)) output_file false
    else [print_error "Invalid input file"]

/-- Candidate lines a completed scan iterates over, by input mode: in
directory mode the lines of the temporary `ls` listing (one entry name per
line), in file mode the lines of the input file (isrc.py lines 239-250,
260-262). -/
def scan_input_lines (fs : FS) (input_file : String)
    (dir_input : Option String) : List String :=
  match dir_input with
  | some d => (fs.dirListing (fs.abspath d)).map (fun name => name ++ "\n")
  | none => fs.fileLines (fs.abspath input_file)

/-! ### Year bucketing of `plot_isrc_year_distribution`
(isrc.py lines 186-193) -/

/-- Decimal value of a run of ASCII digits, with an accumulator; `none` on
the first non-digit character. -/
def int_of_digits (acc : Nat) : List Char → Option Nat
  | [] => some acc
  | c :: cs =>
    if isAsciiDigit c then int_of_digits (acc * 10 + (c.toNat - 48)) cs
    else none

/-- Model of Python's `int()` applied to the year field: succeeds on a
nonempty run of ASCII digits, yielding its decimal value; `none` models the
`ValueError` raised on anything else (signs and surrounding whitespace,
which `int()` would also accept, cannot occur in a slice of a code). -/
def python_int (s : String) : Option Nat :=
  if s.data.isEmpty then none else int_of_digits 0 s.data

/-- Model of the year computation of `plot_isrc_year_distribution` (isrc.py
lines 190-193): `year = int(isrc[0][5:7]) + 2000; if year > today: year -= 100`.
Characters `[5:7]` of the code (1-indexed characters 6-7) are parsed as an
integer, 2000 is added, and 100 is subtracted exactly when the result
exceeds the current calendar year. -/
def isrc_year (code : String) (today_year : Nat) : Option Nat :=
  match python_int ((code.drop 5).take 2) with
  | none => none
  | some yy =>
    if yy + 2000 > today_year then some (yy + 2000 - 100)
    else some (yy + 2000)

/-! ### Concrete file systems used to evaluate the theorems -/

/-- Test file system with no files and no directories. -/
def fs_empty : FS where
  isFile := fun _ => false
  pathExists := fun _ => false
  abspath := fun p => p
  fileLines := fun _ => []
  dirListing := fun _ => []

/-- Test file system: "isrc.txt" and "ISRC_invalid.txt" exist as regular
files; "isrc.txt" holds one valid and one invalid line. -/
def fs_demo : FS where
  isFile := fun p => p == "isrc.txt" || p == "ISRC_invalid.txt"
  pathExists := fun p => p == "isrc.txt" || p == "ISRC_invalid.txt"
  abspath := fun p => p
  fileLines := fun p =>
    if p == "isrc.txt" then ["USRC17607839\n", "12ABCDEFGHIJ\n"] else []
  dirListing := fun _ => []

/-- Test file system for directory mode: "music" exists and is not a regular
file, with two entries; "ISRC_invalid.txt" exists as a regular file. -/
def fs_dir : FS where
  isFile := fun p => p == "ISRC_invalid.txt"
  pathExists := fun p => p == "music" || p == "ISRC_invalid.txt"
  abspath := fun p => p
  fileLines := fun _ => []
  dirListing := fun p => if p == "music" then ["GBUM71505078", "notanisrc"] else []

/-! ## Supporting lemmas -/

theorem matchRun_length {p : Char → Bool} :
    ∀ {n : Nat} {cs rest : List Char},
      matchRun p n cs = some rest → rest.length + n = cs.length := by
  intro n
  induction n with
  | zero =>
    intro cs rest h
    simp [matchRun] at h
    simp [h]
  | succ n ih =>
    intro cs rest h
    cases cs with
    | nil => simp [matchRun] at h
    | cons c cs =>
      simp only [matchRun] at h
      by_cases hc : p c
      · rw [if_pos hc] at h
        have := ih h
        simp [List.length_cons]
        omega
      · rw [if_neg hc] at h
        exact absurd h (by simp)

theorem matchRun_decomp {p : Char → Bool} :
    ∀ {n : Nat} {cs rest : List Char}, matchRun p n cs = some rest →
      ∃ pre, cs = pre ++ rest ∧ pre.length = n ∧ ∀ c ∈ pre, p c = true := by
  intro n
  induction n with
  | zero =>
    intro cs rest h
    simp [matchRun] at h
    exact ⟨[], by simp [h]⟩
  | succ n ih =>
    intro cs rest h
    cases cs with
    | nil => simp [matchRun] at h
    | cons c cs =>
      simp only [matchRun] at h
      by_cases hc : p c
      · rw [if_pos hc] at h
        obtain ⟨pre, hcs, hlen, hall⟩ := ih h
        refine ⟨c :: pre, ?_, ?_, ?_⟩
        · simp [hcs]
        · simp [hlen]
        · intro a ha
          rcases List.mem_cons.mp ha with ha | ha
          · rw [ha]; exact hc
          · exact hall a ha
      · rw [if_neg hc] at h
        exact absurd h (by simp)

theorem re_match_eq_full_of_len12 {cs : List Char} (h : cs.length = 12) :
    re_match_isrc cs = spec_full_match cs := by
  unfold re_match_isrc spec_full_match
  cases h1 : matchRun isAsciiLetter 2 cs with
  | none => rfl
  | some cs1 =>
    dsimp only
    cases h2 : matchRun isAsciiAlnum 3 cs1 with
    | none => rfl
    | some cs2 =>
      dsimp only
      cases h3 : matchRun isAsciiDigit 7 cs2 with
      | none => simp
      | some rest =>
        have l1 := matchRun_length h1
        have l2 := matchRun_length h2
        have l3 := matchRun_length h3
        have : rest.length = 0 := by omega
        have : rest = [] := List.length_eq_zero.mp this
        subst this
        simp

theorem spec_full_match_length {cs : List Char} (h : spec_full_match cs = true) :
    cs.length = 12 := by
  unfold spec_full_match at h
  cases h1 : matchRun isAsciiLetter 2 cs with
  | none => rw [h1] at h; exact absurd h (by simp)
  | some cs1 =>
    rw [h1] at h
    dsimp only at h
    cases h2 : matchRun isAsciiAlnum 3 cs1 with
    | none => rw [h2] at h; exact absurd h (by simp)
    | some cs2 =>
      rw [h2] at h
      dsimp only at h
      cases h3 : matchRun isAsciiDigit 7 cs2 with
      | none => rw [h3] at h; exact absurd h (by simp)
      | some rest =>
        rw [h3] at h
        dsimp only at h
        have hrest : rest = [] := by
          simpa [List.isEmpty_iff] using h
        subst hrest
        have l1 := matchRun_length h1
        have l2 := matchRun_length h2
        have l3 := matchRun_length h3
        simp only [List.length_nil] at l3
        omega

theorem scan_route_eq_filter (lines : List String) :
    scan_route lines =
      (lines.filter classify_line, lines.filter (fun l => !classify_line l)) := by
  induction lines with
  | nil => rfl
  | cons l rest ih =>
    by_cases h : classify_line l
    · simp [scan_route, List.filter, h, ih]
    · simp [scan_route, List.filter, h, ih]

theorem scan_foldl_general (lines : List String) (v i : String) (n : Nat) :
    lines.foldl scan_step (v, i, n) =
      (v ++ concat_all (scan_route lines).1,
       i ++ concat_all (scan_route lines).2,
       n + (scan_route lines).2.length) := by
  induction lines generalizing v i n with
  | nil => simp [scan_route, concat_all, String.append_empty]
  | cons l rest ih =>
    by_cases h : classify_line l
    · simp only [List.foldl, scan_step, h, if_pos, scan_route, if_true]
      rw [ih]
      simp [concat_all, String.append_assoc]
    · simp only [List.foldl, scan_step, h, scan_route, if_neg, Bool.false_eq_true,
        if_false]
      rw [ih]
      simp [concat_all, String.append_assoc]
      omega

theorem scan_lines_eq_route (lines : List String) :
    scan_lines lines =
      (concat_all (scan_route lines).1,
       concat_all (scan_route lines).2,
       (scan_route lines).2.length) := by
  unfold scan_lines
  rw [scan_foldl_general]
  simp [String.empty_append]

theorem invalid_nonempty_route {lines : List String}
    (h : (scan_lines lines).2.1.length ≠ 0) : (scan_route lines).2 ≠ [] := by
  intro hnil
  rw [scan_lines_eq_route] at h
  rw [hnil] at h
  simp [concat_all] at h

theorem scan_and_write_has_valid_write (pre : List Event) (fs : FS)
    (L : List String) (out : String) (rm : Bool) :
    Event.write "ISRC_valid.txt" (scan_lines L).1 ∈ scan_and_write pre fs L out rm := by
  unfold scan_and_write
  simp [List.mem_append]

theorem scan_and_write_writes {pre : List Event} {fs : FS}
    {L : List String} {out : String} {rm : Bool} {p c : String}
    (hmem : Event.write p c ∈ scan_and_write pre fs L out rm) :
    Event.write p c ∈ pre ∨
      (p = "ISRC_valid.txt" ∧ c = (scan_lines L).1) ∨
      ((scan_lines L).2.1.length ≠ 0 ∧ p = out_path fs out ∧
        c = (scan_lines L).2.1 ∧ (scan_route L).2 ≠ []) := by
  unfold scan_and_write at hmem
  rcases List.mem_append.mp hmem with h | h
  · rcases List.mem_append.mp h with h | h
    · rcases List.mem_append.mp h with h | h
      · rcases List.mem_append.mp h with h | h
        · exact Or.inl h
        · exfalso
          unfold out_warn_events at h
          by_cases hw : !fs.isFile out
          · rw [if_pos hw] at h
            simp at h
          · rw [if_neg hw] at h
            simp at h
      · exfalso
        by_cases hrm : rm = true
        · rw [if_pos hrm] at h
          simp at h
        · rw [if_neg hrm] at h
          simp at h
    · simp at h
      exact Or.inr (Or.inl h)
  · by_cases hinv : (scan_lines L).2.1.length ≠ 0
    · rw [if_pos hinv] at h
      simp at h
      rcases h with ⟨hp, hc⟩
      exact Or.inr (Or.inr ⟨hinv, hp, hc, invalid_nonempty_route hinv⟩)
    · rw [if_neg hinv] at h
      simp at h

theorem scan_all_valid_empty {L : List String}
    (hall : ∀ l ∈ L, classify_line l = true) :
    (scan_lines L).2.1 = "" := by
  have hroute : (scan_route L).2 = [] := by
    rw [scan_route_eq_filter]
    simp only
    rw [List.filter_eq_nil_iff]
    intro a ha
    simp [hall a ha]
  rw [scan_lines_eq_route, hroute]
  rfl

theorem scan_and_write_all_valid (pre : List Event) (fs : FS)
    {L : List String} (out : String) (rm : Bool)
    (hall : ∀ l ∈ L, classify_line l = true) :
    Event.success "All ISRCs are valid" ∈ scan_and_write pre fs L out rm := by
  unfold scan_and_write
  rw [scan_all_valid_empty hall]
  simp [String.length_empty]

theorem scan_and_write_warns (pre : List Event) (fs : FS)
    (L : List String) (out : String) (rm : Bool) (hw : fs.isFile out = true) :
    Event.warning "Already existing output file will be overwritten"
      ∈ scan_and_write pre fs L out rm := by
  unfold scan_and_write
  simp [out_warn_events, hw]

theorem scan_and_write_removes (pre : List Event) (fs : FS)
    (L : List String) (out : String) :
    Event.remove "tmpISRCs.txt" ∈ scan_and_write pre fs L out true := by
  unfold scan_and_write
  simp

/-! ## Claims -/

/-- C1: `validate_isrc` returns true iff the string has length exactly 12 and
matches the anchored pattern of 2 ASCII letters, 3 ASCII alphanumerics and
7 ASCII digits; in particular every string of length ≠ 12 yields false.
The embedding is a pure function, so there are no side effects. -/
theorem validate_isrc_correct (s : String) :
    (validate_isrc s = spec_isValid s) ∧ (s.length ≠ 12 → validate_isrc s = false) := by
  constructor
  · unfold validate_isrc spec_isValid
    by_cases h : s.length = 12
    · rw [if_pos h]
      have hdata : s.data.length = 12 := h
      rw [re_match_eq_full_of_len12 hdata]
      simp [h]
    · rw [if_neg h]
      have : spec_full_match s.data = false := by
        by_contra hc
        have : spec_full_match s.data = true := by
          cases hs : spec_full_match s.data
          · exact absurd hs hc
          · rfl
        exact h (spec_full_match_length this)
      simp [this]
  · intro h
    unfold validate_isrc
    rw [if_neg h]

/-- Witness for C1 at concrete inputs: a 7-character string is rejected by the
length rule, and on a genuine 12-character code the implementation agrees with
the anchored specification pattern. -/
theorem validate_isrc_correct_witness :
    validate_isrc "USRC178" = false ∧
      validate_isrc "USRC17607839" = spec_isValid "USRC17607839" :=
  ⟨(validate_isrc_correct "USRC178").2 (by decide),
   (validate_isrc_correct "USRC17607839").1⟩

/-- C2 counterexample: on the single over-long input line
"ABCDEFGHIJKLMNOP\n" the scanner appends the original raw 17-character line
to the invalid accumulator, not a newline-terminated copy of its first
12 characters, so the invalid output line does not consist of 12 characters
followed by a newline. -/
theorem scan_keeps_raw_line_cex :
    (scan_lines ["ABCDEFGHIJKLMNOP\n"]).2.1 = "ABCDEFGHIJKLMNOP\n" ∧
      "ABCDEFGHIJKLMNOP\n" ≠ "ABCDEFGHIJKL\n" := by
  constructor
  · decide
  · decide

/-- C2 amended: the scanner classifies a line as valid exactly when its total
length is 13 and its first 12 characters pass the validator, and it appends
the original raw line verbatim to the corresponding accumulator; hence every
line of the valid accumulator has length 13 with a validator-passing
12-character prefix, while invalid lines are copied at whatever length they
have. -/
theorem scan_appends_raw_lines (lines : List String) :
    (scan_lines lines).1 = concat_all (lines.filter classify_line) ∧
      (scan_lines lines).2.1 = concat_all (lines.filter (fun l => !classify_line l)) ∧
      (∀ l ∈ lines, classify_line l = true →
        l.length = 13 ∧ validate_isrc (l.take 12) = true) := by
  refine ⟨?_, ?_, ?_⟩
  · rw [scan_lines_eq_route, scan_route_eq_filter]
  · rw [scan_lines_eq_route, scan_route_eq_filter]
  · intro l _ hl
    unfold classify_line at hl
    simp only [Bool.and_eq_true, decide_eq_true_eq] at hl
    exact hl

/-- Witness for C2's amended theorem at a concrete input: the valid
accumulator is the concatenation of the raw lines that passed, and the
concrete valid line "USRC17607839\n" has length 13 with a passing prefix. -/
theorem scan_appends_raw_lines_witness :
    (scan_lines ["USRC17607839\n", "ABC\n"]).1 =
        concat_all (["USRC17607839\n", "ABC\n"].filter classify_line) ∧
      ("USRC17607839\n".length = 13 ∧
        validate_isrc ("USRC17607839\n".take 12) = true) :=
  ⟨(scan_appends_raw_lines ["USRC17607839\n", "ABC\n"]).1,
   (scan_appends_raw_lines ["USRC17607839\n", "ABC\n"]).2.2 "USRC17607839\n"
     (by simp) (by decide)⟩

/-- C3: every line is routed to exactly one of the two accumulators (the
valid route keeps exactly the lines that classify true, the invalid route
exactly the others), the two route lengths add up to the number of input
lines, and the source's invalid counter agrees with the invalid route
length. -/
theorem scan_partition_complete (lines : List String) :
    (scan_route lines).1.length + (scan_route lines).2.length = lines.length ∧
      (scan_route lines).1 = lines.filter classify_line ∧
      (scan_route lines).2 = lines.filter (fun l => !classify_line l) ∧
      (scan_lines lines).2.2 = (scan_route lines).2.length := by
  refine ⟨?_, ?_, ?_, ?_⟩
  · rw [scan_route_eq_filter]
    simp only
    induction lines with
    | nil => rfl
    | cons l rest ih =>
      by_cases h : classify_line l
      · simp [List.filter, h]
        omega
      · simp [List.filter, h]
        omega
  · rw [scan_route_eq_filter]
  · rw [scan_route_eq_filter]
  · rw [scan_lines_eq_route]

/-- C6: the valid route is a subsequence of the input (order preserved), the
two accumulator strings are the in-order concatenations of the routed raw
lines, every entry of the valid route passed validation, and the invalid
route is likewise the in-order subsequence of rejected lines. -/
theorem scan_order_preserved (lines : List String) :
    ((scan_route lines).1.Sublist lines ∧ (scan_route lines).2.Sublist lines) ∧
      (scan_lines lines).1 = concat_all (scan_route lines).1 ∧
      (scan_lines lines).2.1 = concat_all (scan_route lines).2 ∧
      (∀ n (h : n < (scan_route lines).1.length),
        classify_line ((scan_route lines).1.get ⟨n, h⟩) = true) ∧
      (∀ n (h : n < (scan_route lines).2.length),
        classify_line ((scan_route lines).2.get ⟨n, h⟩) = false) := by
  refine ⟨⟨?_, ?_⟩, ?_, ?_, ?_, ?_⟩
  · rw [scan_route_eq_filter]
    exact List.filter_sublist lines
  · rw [scan_route_eq_filter]
    exact List.filter_sublist lines
  · rw [scan_lines_eq_route]
  · rw [scan_lines_eq_route]
  · intro n h
    have hmem : (scan_route lines).1.get ⟨n, h⟩ ∈ (scan_route lines).1 :=
      List.get_mem _ _ _
    revert hmem
    generalize (scan_route lines).1.get ⟨n, h⟩ = x
    intro hmem
    rw [scan_route_eq_filter] at hmem
    exact (List.mem_filter.mp hmem).2
  · intro n h
    have hmem : (scan_route lines).2.get ⟨n, h⟩ ∈ (scan_route lines).2 :=
      List.get_mem _ _ _
    revert hmem
    generalize (scan_route lines).2.get ⟨n, h⟩ = x
    intro hmem
    rw [scan_route_eq_filter] at hmem
    have := (List.mem_filter.mp hmem).2
    simpa using this

/-- Witness for C6 at a concrete input: with one valid and one invalid line,
the first (index 0) entry of the valid route classifies true and the first
entry of the invalid route classifies false. -/
theorem scan_order_preserved_witness :
    classify_line ((scan_route ["USRC17607839\n", "ABC\n"]).1.get
        ⟨0, by decide⟩) = true ∧
      classify_line ((scan_route ["USRC17607839\n", "ABC\n"]).2.get
        ⟨0, by decide⟩) = false :=
  ⟨(scan_order_preserved ["USRC17607839\n", "ABC\n"]).2.2.2.1 0 (by decide),
   (scan_order_preserved ["USRC17607839\n", "ABC\n"]).2.2.2.2 0 (by decide)⟩

/-- C9: a line whose total length (trailing newline included) is not exactly
13 is classified invalid — the validator is never even consulted — and the
scan routes it to the invalid accumulator. -/
theorem wrong_length_line_invalid (line : String) (h : line.length ≠ 13) :
    classify_line line = false ∧ scan_route [line] = ([], [line]) := by
  have hcl : classify_line line = false := by
    unfold classify_line
    simp [h]
  refine ⟨hcl, ?_⟩
  simp [scan_route, hcl]

/-- Witness for C9 at a concrete input: the final line "USRC17607839" (12
characters, no trailing newline) has a syntactically valid ISRC as its first
12 characters, yet is classified invalid and routed to the invalid
accumulator. -/
theorem wrong_length_line_invalid_witness :
    (classify_line "USRC17607839" = false ∧
        scan_route ["USRC17607839"] = ([], ["USRC17607839"])) ∧
      validate_isrc "USRC17607839" = true :=
  ⟨wrong_length_line_invalid "USRC17607839" (by decide), by decide⟩

/-- C4: when the input path names neither a readable file (file mode) nor an
existing non-file path (directory mode), the run is exactly one fatal
invalid-input diagnostic and contains no write event at all, so no output
file is written or modified before termination. -/
theorem invalid_input_no_writes (fs : FS) (inp out : String) (d : Option String)
    (h : match d with
         | none => fs.isFile inp = false
         | some dir => fs.isFile dir = true ∨ fs.pathExists dir = false) :
    validate_isrcs fs inp out d =
        [Event.errorExit
          (match d with
           | none => "Invalid input file"
           | some dir => "Invalid directory name: " ++ dir) 0] ∧
      ∀ p c, Event.write p c ∉ validate_isrcs fs inp out d := by
  cases d with
  | none =>
    simp only at h
    constructor
    · simp [validate_isrcs, h, print_error]
    · intro p c
      simp [validate_isrcs, h, print_error]
  | some dir =>
    simp only at h
    have hguard : (!fs.isFile dir && fs.pathExists dir) = false := by
      rcases h with h | h <;> simp [h]
    constructor
    · simp [validate_isrcs, abs_path_dir, hguard, print_error]
    · intro p c
      simp [validate_isrcs, abs_path_dir, hguard, print_error]

/-- Witness for C4 at a concrete input: on a file system with no files and no
directories, the default run is one fatal diagnostic and no write occurs. -/
theorem invalid_input_no_writes_witness :
    validate_isrcs fs_empty "isrc.txt" "ISRC_invalid.txt" none =
        [Event.errorExit "Invalid input file" 0] ∧
      ∀ p c, Event.write p c ∉ validate_isrcs fs_empty "isrc.txt" "ISRC_invalid.txt" none :=
  invalid_input_no_writes fs_empty "isrc.txt" "ISRC_invalid.txt" none (by decide)

/-- C5: for every completed scan, in file mode and in directory mode alike,
`ISRC_valid.txt` is written unconditionally with the valid accumulator; any
other write is either the invalid-output write — which happens only when
the invalid accumulator is nonempty, hence only when at least one entry was
routed invalid — or, in directory mode only, the temporary listing file
`tmpISRCs.txt`, which is removed again during the run; when every candidate
classifies valid, no write besides `ISRC_valid.txt` (and the temporary
listing) occurs and the success message "All ISRCs are valid" is reported;
and a pre-existing file at the invalid-output path yields the overwrite
warning. -/
theorem completed_scan_outputs (fs : FS) (inp out : String) (d : Option String)
    (h : match d with
         | none => fs.isFile inp = true
         | some dir => (!fs.isFile dir && fs.pathExists dir) = true) :
    (Event.write "ISRC_valid.txt" (scan_lines (scan_input_lines fs inp d)).1
        ∈ validate_isrcs fs inp out d) ∧
      (∀ p c, Event.write p c ∈ validate_isrcs fs inp out d →
        (p = "ISRC_valid.txt" ∧ c = (scan_lines (scan_input_lines fs inp d)).1) ∨
          ((scan_lines (scan_input_lines fs inp d)).2.1.length ≠ 0 ∧
            p = out_path fs out ∧
            c = (scan_lines (scan_input_lines fs inp d)).2.1 ∧
            (scan_route (scan_input_lines fs inp d)).2 ≠ []) ∨
          (∃ dir, d = some dir ∧ p = "tmpISRCs.txt")) ∧
      ((∀ l ∈ scan_input_lines fs inp d, classify_line l = true) →
        (∀ p c, Event.write p c ∈ validate_isrcs fs inp out d →
            p = "ISRC_valid.txt" ∨ p = "tmpISRCs.txt") ∧
          Event.success "All ISRCs are valid" ∈ validate_isrcs fs inp out d) ∧
      (∀ dir, d = some dir →
        Event.remove "tmpISRCs.txt" ∈ validate_isrcs fs inp out d) ∧
      (fs.isFile out = true →
        Event.warning "Already existing output file will be overwritten"
          ∈ validate_isrcs fs inp out d) := by
  cases d with
  | none =>
    simp only at h
    have htrace : validate_isrcs fs inp out none =
        scan_and_write [Event.info ("Input File: " ++ fs.abspath inp)] fs
          (fs.fileLines (fs.abspath inp)) out false := by
      simp [validate_isrcs, h]
    simp only [scan_input_lines]
    refine ⟨?_, ?_, ?_, ?_, ?_⟩
    · rw [htrace]
      exact scan_and_write_has_valid_write _ _ _ _ _
    · intro p c hmem
      rw [htrace] at hmem
      rcases scan_and_write_writes hmem with hpre | hv | hi
      · simp at hpre
      · exact Or.inl hv
      · exact Or.inr (Or.inl hi)
    · intro hall
      have hemp := scan_all_valid_empty hall
      constructor
      · intro p c hmem
        rw [htrace] at hmem
        rcases scan_and_write_writes hmem with hpre | hv | hi
        · simp at hpre
        · exact Or.inl hv.1
        · exfalso
          have hne := hi.1
          rw [hemp] at hne
          exact hne String.length_empty
      · rw [htrace]
        exact scan_and_write_all_valid _ _ _ _ hall
    · intro dir hdir
      exact absurd hdir (by simp)
    · intro hw
      rw [htrace]
      exact scan_and_write_warns _ _ _ _ _ hw
  | some dir =>
    simp only at h
    have htrace : validate_isrcs fs inp out (some dir) =
        scan_and_write
          [Event.info ("Directory to analyse: " ++ fs.abspath dir),
           Event.write "tmpISRCs.txt"
             (concat_all ((fs.dirListing (fs.abspath dir)).map
               (fun name => name ++ "\n")))]
          fs ((fs.dirListing (fs.abspath dir)).map (fun name => name ++ "\n"))
          out true := by
      simp [validate_isrcs, abs_path_dir, h]
    simp only [scan_input_lines]
    refine ⟨?_, ?_, ?_, ?_, ?_⟩
    · rw [htrace]
      exact scan_and_write_has_valid_write _ _ _ _ _
    · intro p c hmem
      rw [htrace] at hmem
      rcases scan_and_write_writes hmem with hpre | hv | hi
      · simp at hpre
        exact Or.inr (Or.inr ⟨dir, rfl, hpre.1⟩)
      · exact Or.inl hv
      · exact Or.inr (Or.inl hi)
    · intro hall
      have hemp := scan_all_valid_empty hall
      constructor
      · intro p c hmem
        rw [htrace] at hmem
        rcases scan_and_write_writes hmem with hpre | hv | hi
        · simp at hpre
          exact Or.inr hpre.1
        · exact Or.inl hv.1
        · exfalso
          have hne := hi.1
          rw [hemp] at hne
          exact hne String.length_empty
      · rw [htrace]
        exact scan_and_write_all_valid _ _ _ _ hall
    · intro dir0 hdir
      injection hdir with hdir
      subst hdir
      rw [htrace]
      exact scan_and_write_removes _ _ _ _
    · intro hw
      rw [htrace]
      exact scan_and_write_warns _ _ _ _ _ hw

/-- Witness for C5 at a concrete input exercising directory mode: on a file
system where "music" is an existing non-file path and the invalid-output
path already exists, the completed scan writes `ISRC_valid.txt`, removes
the temporary listing file, and reports the overwrite warning. -/
theorem completed_scan_outputs_witness :
    (Event.write "ISRC_valid.txt"
        (scan_lines (scan_input_lines fs_dir "isrc.txt" (some "music"))).1
          ∈ validate_isrcs fs_dir "isrc.txt" "ISRC_invalid.txt" (some "music")) ∧
      (Event.remove "tmpISRCs.txt"
          ∈ validate_isrcs fs_dir "isrc.txt" "ISRC_invalid.txt" (some "music")) ∧
      (Event.warning "Already existing output file will be overwritten"
          ∈ validate_isrcs fs_dir "isrc.txt" "ISRC_invalid.txt" (some "music")) :=
  ⟨(completed_scan_outputs fs_dir "isrc.txt" "ISRC_invalid.txt" (some "music")
      (by decide)).1,
   (completed_scan_outputs fs_dir "isrc.txt" "ISRC_invalid.txt" (some "music")
      (by decide)).2.2.2.1 "music" rfl,
   (completed_scan_outputs fs_dir "isrc.txt" "ISRC_invalid.txt" (some "music")
      (by decide)).2.2.2.2 (by decide)⟩

/-- C7: the code evaluated at a failing input.  On a nonexistent input path
the run is the `print_error` diagnostic, whose `sys.exit()` call carries no
argument, so the process terminates with exit status 0 — a success status
where the claim requires a nonzero-equivalent one.  (The unopenable-file
failures the claim also covers bypass `print_error` entirely: Python ends
them with an uncaught exception and status 1, without the program's own
diagnostic — those paths are outside this file-system model.) -/
theorem fatal_exit_zero_cex :
    validate_isrcs fs_empty "isrc.txt" "ISRC_invalid.txt" none =
      [Event.errorExit "Invalid input file" 0] := by
  decide

/-- C10: the directory check of `abs_path_dir` accepts a path exactly when it
exists and is not a regular file; consequently, when the directory-input
argument names an existing regular file, the run stops fatally with the
invalid-directory diagnostic. -/
theorem dir_path_check (fs : FS) (d : String) :
    ((abs_path_dir fs d).toOption.isSome = true ↔
        (fs.pathExists d = true ∧ fs.isFile d = false)) ∧
      (fs.isFile d = true → ∀ inp out,
        validate_isrcs fs inp out (some d) =
          [Event.errorExit ("Invalid directory name: " ++ d) 0]) := by
  constructor
  · unfold abs_path_dir
    by_cases h1 : fs.isFile d <;> by_cases h2 : fs.pathExists d <;>
      simp [h1, h2, print_error, Except.toOption]
  · intro h inp out
    have hguard : (!fs.isFile d && fs.pathExists d) = false := by simp [h]
    simp [validate_isrcs, abs_path_dir, hguard, print_error]

/-- Witness for C10 at a concrete input: "isrc.txt" exists as a regular file
on the demo file system, so passing it as the directory argument stops the
run fatally with the invalid-directory diagnostic. -/
theorem dir_path_check_witness :
    validate_isrcs fs_demo "in.txt" "out.txt" (some "isrc.txt") =
      [Event.errorExit ("Invalid directory name: " ++ "isrc.txt") 0] :=
  (dir_path_check fs_demo "isrc.txt").2 (by decide) "in.txt" "out.txt"

/-- For a code accepted by the validator, the character list from position 5
onward starts with two ASCII digits (the year field). -/
theorem validate_isrc_year_digits {code : String} (h : validate_isrc code = true) :
    ∃ c5 c6 ds, code.data.drop 5 = c5 :: c6 :: ds ∧
      isAsciiDigit c5 = true ∧ isAsciiDigit c6 = true := by
  unfold validate_isrc at h
  by_cases hlen : code.length = 12
  · rw [if_pos hlen] at h
    have hd : code.data.length = 12 := hlen
    rw [re_match_eq_full_of_len12 hd] at h
    unfold spec_full_match at h
    cases h1 : matchRun isAsciiLetter 2 code.data with
    | none => rw [h1] at h; exact absurd h (by simp)
    | some cs1 =>
      rw [h1] at h
      dsimp only at h
      cases h2 : matchRun isAsciiAlnum 3 cs1 with
      | none => rw [h2] at h; exact absurd h (by simp)
      | some cs2 =>
        rw [h2] at h
        dsimp only at h
        cases h3 : matchRun isAsciiDigit 7 cs2 with
        | none => rw [h3] at h; exact absurd h (by simp)
        | some rest =>
          rw [h3] at h
          dsimp only at h
          have hrest : rest = [] := by
            simpa [List.isEmpty_iff] using h
          subst hrest
          obtain ⟨p1, hcs, hp1len, _⟩ := matchRun_decomp h1
          obtain ⟨p2, hcs1, hp2len, _⟩ := matchRun_decomp h2
          obtain ⟨p3, hcs2, hp3len, hp3dig⟩ := matchRun_decomp h3
          have hdata : code.data = p1 ++ p2 ++ p3 := by
            rw [hcs, hcs1, hcs2]
            simp
          have h5 : (p1 ++ p2).length = 5 := by
            simp [hp1len, hp2len]
          have hdrop : code.data.drop 5 = p3 := by
            rw [hdata, List.append_assoc, ← List.append_assoc, ← h5, List.drop_left]
          cases p3 with
          | nil => simp at hp3len
          | cons c5 p3t =>
            cases p3t with
            | nil => simp at hp3len
            | cons c6 ds =>
              refine ⟨c5, c6, ds, hdrop, ?_, ?_⟩
              · exact hp3dig c5 (by simp)
              · exact hp3dig c6 (by simp)
  · rw [if_neg hlen] at h
    exact absurd h (by simp)

/-- C8: for every code accepted by the validator, the year field (characters
6-7, i.e. the slice [5:7]) parses as a two-digit number yy < 100; the
reporting stage interprets it as 20yy, and rolls the year back by 100 to
19yy exactly when 20yy is strictly greater than the current calendar
year. -/
theorem isrc_year_bucketing (code : String) (today_year : Nat)
    (h : validate_isrc code = true) :
    ∃ yy, python_int ((code.drop 5).take 2) = some yy ∧ yy < 100 ∧
      (yy + 2000 > today_year → isrc_year code today_year = some (yy + 1900)) ∧
      (¬(yy + 2000 > today_year) → isrc_year code today_year = some (yy + 2000)) := by
  obtain ⟨c5, c6, ds, hdrop, hd5, hd6⟩ := validate_isrc_year_digits h
  have hdata : ((code.drop 5).take 2).data = [c5, c6] := by
    rw [String.data_take, String.data_drop, hdrop]
    rfl
  have hpi : python_int ((code.drop 5).take 2) =
      some ((c5.toNat - 48) * 10 + (c6.toNat - 48)) := by
    unfold python_int
    rw [hdata]
    simp [int_of_digits, hd5, hd6]
  have hb5 : 48 ≤ c5.toNat ∧ c5.toNat ≤ 57 := by
    unfold isAsciiDigit at hd5
    simp only [Bool.and_eq_true, decide_eq_true_eq] at hd5
    obtain ⟨ha, hb⟩ := hd5
    rw [Char.le_def] at ha hb
    exact ⟨ha, hb⟩
  have hb6 : 48 ≤ c6.toNat ∧ c6.toNat ≤ 57 := by
    unfold isAsciiDigit at hd6
    simp only [Bool.and_eq_true, decide_eq_true_eq] at hd6
    obtain ⟨ha, hb⟩ := hd6
    rw [Char.le_def] at ha hb
    exact ⟨ha, hb⟩
  refine ⟨(c5.toNat - 48) * 10 + (c6.toNat - 48), hpi, by omega, ?_, ?_⟩
  · intro hgt
    unfold isrc_year
    rw [hpi]
    dsimp only
    rw [if_pos hgt]
    congr 1
  · intro hle
    unfold isrc_year
    rw [hpi]
    dsimp only
    rw [if_neg hle]

/-- Witness for C8 at concrete inputs with current year 2024: year digits
"99" bucket to 1999 (rollback applied) and year digits "16" bucket to 2016
(no rollback). -/
theorem isrc_year_bucketing_witness :
    isrc_year "FRXYZ9987654" 2024 = some 1999 ∧
      isrc_year "FRXYZ1687654" 2024 = some 2016 := by
  obtain ⟨yy, hp, _, hgt, _⟩ := isrc_year_bucketing "FRXYZ9987654" 2024 (by decide)
  obtain ⟨zz, hq, _, _, hle⟩ := isrc_year_bucketing "FRXYZ1687654" 2024 (by decide)
  have h99 : python_int (("FRXYZ9987654".drop 5).take 2) = some 99 := by decide
  have h16 : python_int (("FRXYZ1687654".drop 5).take 2) = some 16 := by decide
  rw [h99] at hp
  rw [h16] at hq
  injection hp with hp
  injection hq with hq
  subst hp
  subst hq
  constructor
  · simpa using hgt (by omega)
  · simpa using hle (by omega)

end ISRC
